import Mathlib

/-!
Verification development for the portfolio rebalancing core of the
`alpaca-cli` repository (`src/alpaca_cli/cli/utils.py`): the numeric
validator `validate_not_nan` and the order calculator
`calculate_rebalancing_orders`.

The Python code works on floats and `decimal.Decimal` values.  We embed
the numeric domain shallowly as follows:

* every finite Python number is a rational `ℚ` (each finite IEEE double
  is a rational, and `Decimal(str(x))` converts it exactly);
* `float("nan")` is the dedicated constructor `PyVal.nan`;
* Python's `None` (a missing value, in particular `dict.get` of an
  absent price key) is the constructor `PyVal.none`;
* `Decimal` arithmetic is modelled exactly over `ℚ` (the Python default
  context carries 28 significant digits; none of the properties below
  depends on that rounding);
* a raised `ValueError` is `Except.error` with the message, so the
  all-or-nothing failure semantics (no partial order list) is the
  `Except` short-circuit.

Python's `set` iterates in arbitrary order; we fix one concrete
enumeration of the key union (`symbolList`), which is sound for every
property below (they are order-insensitive or explicitly allow any
order).

The constants module `alpaca_cli.core.constants` (providing
`MIN_QTY_THRESHOLD` and `MIN_TRADE_VALUE_THRESHOLD`) is not among the
provided sources, so the two thresholds are explicit parameters of the
embedded calculator, and concrete values are modelled from the spec and
the tests where a concrete instance is needed.
-/

namespace AlpacaCli

/-- A Python value flowing through the calculator: a finite number, a
floating-point NaN, or `None` (missing data). -/
inductive PyVal where
  | none : PyVal
  | nan : PyVal
  | num : ℚ → PyVal
deriving DecidableEq, Repr

/-- A Python dict of numeric values: association list with unique keys
(first binding wins, as in `dict`). -/
abbrev Dict := List (String × PyVal)

/-- `d.get(k, default)` for positions and weights: the stored value if
the key is present, else the default. -/
def dictGet (d : Dict) (k : String) (default : PyVal) : PyVal :=
  match d.lookup k with
  | Option.some v => v
  | Option.none => default

/-- `d.get(k)` for prices: the stored value if present, else Python
`None`. -/
def dictGetOpt (d : Dict) (k : String) : PyVal :=
  match d.lookup k with
  | Option.some v => v
  | Option.none => PyVal.none

/-- The keys of a dict. -/
def dictKeys (d : Dict) : List String :=
  d.map Prod.fst

/-- Embedding of `validate_not_nan(name, value)`: raises on `None`
(missing) and on floating-point NaN, accepts everything else without
modification. -/
def validate_not_nan (name : String) (value : PyVal) : Except String Unit :=
  match value with
  | PyVal.none =>
      Except.error ("Data validation failed: " ++ name ++ " is None (Missing).")
  | PyVal.nan =>
      Except.error ("Data validation failed: " ++ name ++ " is NaN.")
  | PyVal.num _ => Except.ok ()

/-- An emitted order intent: `{"symbol": ..., "qty": ..., "side": ...,
"type": "market"}`. -/
structure Order where
  symbol : String
  qty : ℚ
  side : String
  type : String
deriving DecidableEq, Repr

/-- `target_qty - qty` for a symbol: `equity * weight / price - qty`. -/
def rawDelta (equity q w p : ℚ) : ℚ :=
  equity * w / p - q

/-- The traded delta after the short-selling snap: when the final
quantity would be negative and shorting is disallowed (and the code did
not raise, i.e. the magnitude is microscopic), the delta is replaced by
`-qty`, an exact full close. -/
def snappedDelta (equity : ℚ) (allowShort : Bool) (q w p : ℚ) : ℚ :=
  if q + rawDelta equity q w p < 0 ∧ allowShort = false then -q
  else rawDelta equity q w p

/-- `"buy" if diff_qty_d > 0 else "sell"`. -/
def sideOf (diff : ℚ) : String :=
  if diff > 0 then "buy" else "sell"

/-- The per-symbol body of the loop in `calculate_rebalancing_orders`,
given the raw looked-up quantity, weight and price of `symbol`.
Returns `none` for a skipped symbol, `some o` for an emitted order, and
an error for a raised `ValueError`.

Control flow mirrors the source: quantity and weight are NaN/None
validated; the price is NaN/None validated only when quantity or weight
is nonzero; then ALL three raw values are converted to `Decimal`
(a `None` price becomes `Decimal("None")`, which raises
`InvalidOperation`, and a NaN price converts to a `Decimal` NaN whose
`< 0` comparison raises `InvalidOperation`; both are re-raised as the
"Non-numeric data found" `ValueError`); a negative price raises; only
AFTER that does the `qty == 0 and weight == 0` skip fire; a zero price
raises; then the target/delta computation, short check with snap, dust
thresholds, and emission. -/
def processSymbol (equity : ℚ) (allowShort : Bool) (minQty minNotional : ℚ)
    (rawQty rawWeight rawPrice : PyVal) (symbol : String) :
    Except String (Option Order) :=
  match validate_not_nan ("Qty for " ++ symbol) rawQty with
  | Except.error e => Except.error e
  | Except.ok _ =>
  match validate_not_nan ("Weight for " ++ symbol) rawWeight with
  | Except.error e => Except.error e
  | Except.ok _ =>
  match rawQty, rawWeight with
  | PyVal.num q, PyVal.num w =>
      if (q ≠ 0 ∨ w ≠ 0) ∧ (rawPrice = PyVal.none ∨ rawPrice = PyVal.nan)
      then
        match validate_not_nan ("Price for " ++ symbol) rawPrice with
        | Except.error e => Except.error e
        | Except.ok _ => Except.error ("Price for " ++ symbol ++ " unreachable")
      else
        match rawPrice with
        | PyVal.none => Except.error ("Non-numeric data found for " ++ symbol)
        | PyVal.nan => Except.error ("Non-numeric data found for " ++ symbol)
        | PyVal.num p =>
            if p < 0 then
              Except.error ("Price for " ++ symbol ++ " cannot be negative.")
            else if q = 0 ∧ w = 0 then
              Except.ok Option.none
            else if p = 0 then
              if w > 0 then
                Except.error
                  ("Price for " ++ symbol ++ " is 0, cannot calculate buy quantity.")
              else
                Except.error ("Price for " ++ symbol ++ " is 0. Aborting rebalance.")
            else
              if q + rawDelta equity q w p < 0 ∧ allowShort = false ∧
                  ¬ |q + rawDelta equity q w p| < minQty then
                Except.error
                  ("Calculation results in illegal short position for " ++ symbol)
              else
                let diff := snappedDelta equity allowShort q w p
                if |diff| < minQty then Except.ok Option.none
                else if |diff| * p < minNotional ∧ ¬ w = 0 then Except.ok Option.none
                else
                  Except.ok (Option.some
                    { symbol := symbol
                      qty := |diff|
                      side := sideOf diff
                      type := "market" })
  | _, _ => Except.error ("Non-numeric data found for " ++ symbol)

/-- The symbol universe: the union of position keys and weight keys with
the reserved `CASH` placeholder removed.  Python iterates the `set` in
arbitrary order; this fixes one concrete duplicate-free enumeration. -/
def symbolList (positions weights : Dict) : List String :=
  ((dictKeys positions ++ dictKeys weights).dedup).filter (fun s => s ≠ "CASH")

/-- The loop of `calculate_rebalancing_orders`: process each symbol in
turn, abort on the first error (all-or-nothing), collect emitted
orders in iteration order. -/
def processAll (equity : ℚ) (allowShort : Bool) (minQty minNotional : ℚ)
    (positions weights prices : Dict) : List String → Except String (List Order)
  | [] => Except.ok []
  | s :: rest =>
      match processSymbol equity allowShort minQty minNotional
          (dictGet positions s (PyVal.num 0)) (dictGet weights s (PyVal.num 0))
          (dictGetOpt prices s) s with
      | Except.error e => Except.error e
      | Except.ok Option.none =>
          processAll equity allowShort minQty minNotional positions weights prices rest
      | Except.ok (Option.some o) =>
          match processAll equity allowShort minQty minNotional
              positions weights prices rest with
          | Except.error e => Except.error e
          | Except.ok l => Except.ok (o :: l)

/-- Embedding of `calculate_rebalancing_orders(current_equity,
current_positions, target_weights, current_prices, allow_short)`, with
the two threshold constants as explicit parameters (their defining
module is not among the provided sources). -/
def calculate_rebalancing_orders (current_equity : PyVal)
    (current_positions target_weights current_prices : Dict)
    (allow_short : Bool) (minQty minNotional : ℚ) :
    Except String (List Order) :=
  match validate_not_nan "current_equity" current_equity with
  | Except.error e => Except.error e
  | Except.ok _ =>
  match current_equity with
  | PyVal.num equity =>
      if equity ≤ 0 then Except.error "Current equity must be positive."
      else
        processAll equity allow_short minQty minNotional
          current_positions target_weights current_prices
          (symbolList current_positions target_weights)
  | _ => Except.error "Invalid equity value"

/-- Modelled from the spec: the constants module
(`alpaca_cli.core.constants`) is not among the provided sources.  The
unit tests pin the minimum notional to one dollar ("At
MIN_TRADE_VALUE_THRESHOLD = $1"). -/
def MIN_TRADE_VALUE_THRESHOLD : ℚ := 1

/-- Modelled from the spec: the constants module
(`alpaca_cli.core.constants`) is not among the provided sources.  The
spec calls this the minimum-quantity epsilon for rounding dust and
recommends at least 8 fractional digits of working precision; the code
comment gives `-0.000000001` as a magnitude that must snap, so the
epsilon is some small positive value above `1e-9`; we model it as
`1e-6`. -/
def MIN_QTY_THRESHOLD : ℚ := 1 / 1000000

/-! ### Structural lemmas about the loop -/

/-- If some symbol of the universe raises, the whole calculation raises
(all-or-nothing). -/
lemma processAll_error_of_mem (equity : ℚ) (allowShort : Bool) (minQty minNotional : ℚ)
    (positions weights prices : Dict) (syms : List String) (s : String) (e : String)
    (hmem : s ∈ syms)
    (herr : processSymbol equity allowShort minQty minNotional
      (dictGet positions s (PyVal.num 0)) (dictGet weights s (PyVal.num 0))
      (dictGetOpt prices s) s = Except.error e) :
    ∃ e2, processAll equity allowShort minQty minNotional positions weights prices syms
      = Except.error e2 := by
  induction syms with
  | nil => simp at hmem
  | cons t rest ih =>
      rcases List.mem_cons.mp hmem with h | h
      · subst h
        exact ⟨e, by simp only [processAll, herr]⟩
      · rcases Classical.em (∃ e2,
          processSymbol equity allowShort minQty minNotional
            (dictGet positions t (PyVal.num 0)) (dictGet weights t (PyVal.num 0))
            (dictGetOpt prices t) t = Except.error e2) with ⟨e2, he2⟩ | hok
        · exact ⟨e2, by simp only [processAll, he2]⟩
        · obtain ⟨e3, he3⟩ := ih h
          simp only [processAll]
          cases hres : processSymbol equity allowShort minQty minNotional
              (dictGet positions t (PyVal.num 0)) (dictGet weights t (PyVal.num 0))
              (dictGetOpt prices t) t with
          | error e4 => exact ⟨e4, rfl⟩
          | ok v =>
              cases v with
              | none => exact ⟨e3, he3⟩
              | some o => rw [he3]; exact ⟨e3, rfl⟩

/-- If every symbol of the universe is skipped, the calculation returns
the empty order list. -/
lemma processAll_ok_of_all_skip (equity : ℚ) (allowShort : Bool)
    (minQty minNotional : ℚ) (positions weights prices : Dict) (syms : List String)
    (hall : ∀ s ∈ syms, processSymbol equity allowShort minQty minNotional
      (dictGet positions s (PyVal.num 0)) (dictGet weights s (PyVal.num 0))
      (dictGetOpt prices s) s = Except.ok Option.none) :
    processAll equity allowShort minQty minNotional positions weights prices syms
      = Except.ok [] := by
  induction syms with
  | nil => rfl
  | cons t rest ih =>
      have ht := hall t (List.mem_cons_self t rest)
      simp only [processAll, ht]
      exact ih (fun s hs => hall s (List.mem_cons_of_mem t hs))

/-- Every emitted order comes from the per-symbol processing of some
symbol of the universe. -/
lemma processAll_ok_mem (equity : ℚ) (allowShort : Bool) (minQty minNotional : ℚ)
    (positions weights prices : Dict) (syms : List String) (l : List Order) (o : Order)
    (hok : processAll equity allowShort minQty minNotional positions weights prices syms
      = Except.ok l) (ho : o ∈ l) :
    ∃ s ∈ syms, processSymbol equity allowShort minQty minNotional
      (dictGet positions s (PyVal.num 0)) (dictGet weights s (PyVal.num 0))
      (dictGetOpt prices s) s = Except.ok (Option.some o) := by
  induction syms generalizing l with
  | nil =>
      simp only [processAll] at hok
      cases hok
      simp at ho
  | cons t rest ih =>
      simp only [processAll] at hok
      cases hres : processSymbol equity allowShort minQty minNotional
          (dictGet positions t (PyVal.num 0)) (dictGet weights t (PyVal.num 0))
          (dictGetOpt prices t) t with
      | error e => rw [hres] at hok; cases hok
      | ok v =>
          rw [hres] at hok
          cases v with
          | none =>
              obtain ⟨s, hs, hps⟩ := ih l hok ho
              exact ⟨s, List.mem_cons_of_mem t hs, hps⟩
          | some o2 =>
              cases hrest : processAll equity allowShort minQty minNotional
                  positions weights prices rest with
              | error e => rw [hrest] at hok; cases hok
              | ok l2 =>
                  rw [hrest] at hok
                  cases hok
                  rcases List.mem_cons.mp ho with h | h
                  · subst h
                    exact ⟨t, List.mem_cons_self t rest, hres⟩
                  · obtain ⟨s, hs, hps⟩ := ih l2 hrest h
                    exact ⟨s, List.mem_cons_of_mem t hs, hps⟩

/-- Inversion of the per-symbol processing when it emits an order: the
raw values decode to rationals, the price is positive, the delta passed
both dust thresholds (or the notional one was overridden by `weight =
0`), and the order's fields are exactly the computed ones. -/
lemma processSymbol_ok_some_inv (equity : ℚ) (allowShort : Bool)
    (minQty minNotional : ℚ) (rawQty rawWeight rawPrice : PyVal) (s : String)
    (o : Order)
    (h : processSymbol equity allowShort minQty minNotional rawQty rawWeight rawPrice s
      = Except.ok (Option.some o)) :
    ∃ q w p, rawQty = PyVal.num q ∧ rawWeight = PyVal.num w ∧ rawPrice = PyVal.num p ∧
      0 < p ∧ ¬ (q = 0 ∧ w = 0) ∧
      o = { symbol := s, qty := |snappedDelta equity allowShort q w p|,
            side := sideOf (snappedDelta equity allowShort q w p),
            type := "market" } ∧
      minQty ≤ |snappedDelta equity allowShort q w p| ∧
      (minNotional ≤ |snappedDelta equity allowShort q w p| * p ∨ w = 0) := by
  cases rawQty with
  | none => simp [processSymbol, validate_not_nan] at h
  | nan => simp [processSymbol, validate_not_nan] at h
  | num q =>
    cases rawWeight with
    | none => simp [processSymbol, validate_not_nan] at h
    | nan => simp [processSymbol, validate_not_nan] at h
    | num w =>
      cases rawPrice with
      | none =>
          simp only [processSymbol, validate_not_nan] at h
          split at h <;> cases h
      | nan =>
          simp only [processSymbol, validate_not_nan] at h
          split at h <;> cases h
      | num p =>
          refine ⟨q, w, p, rfl, rfl, rfl, ?_⟩
          simp only [processSymbol, validate_not_nan] at h
          rw [if_neg (by simp)] at h
          split_ifs at h with h1 h2 h3 h4 h5 h6 h7
          · cases h
          · cases h
          · cases h
          · cases h
            refine ⟨lt_of_le_of_ne (not_lt.mp h1) (fun hp0 => h3 hp0.symm), h2,
              rfl, not_lt.mp h6, ?_⟩
            by_contra hcon
            push_neg at hcon
            exact h7 ⟨hcon.1, hcon.2⟩

/-- The symbol universe never contains `CASH`. -/
lemma cash_not_mem_symbolList (positions weights : Dict) :
    "CASH" ∉ symbolList positions weights := by
  intro h
  have h2 := (List.mem_filter.mp h).2
  simp at h2

/-- The symbol universe is duplicate-free. -/
lemma symbolList_nodup (positions weights : Dict) :
    (symbolList positions weights).Nodup :=
  (List.nodup_dedup _).filter _

/-- The emitted orders name their symbols in universe order: the list of
emitted symbols is a sublist of the processed universe. -/
lemma processAll_map_symbol_sublist (equity : ℚ) (allowShort : Bool)
    (minQty minNotional : ℚ) (positions weights prices : Dict) (syms : List String)
    (l : List Order)
    (hok : processAll equity allowShort minQty minNotional positions weights prices syms
      = Except.ok l) :
    (l.map Order.symbol).Sublist syms := by
  induction syms generalizing l with
  | nil =>
      simp only [processAll] at hok
      cases hok
      simp
  | cons t rest ih =>
      simp only [processAll] at hok
      cases hres : processSymbol equity allowShort minQty minNotional
          (dictGet positions t (PyVal.num 0)) (dictGet weights t (PyVal.num 0))
          (dictGetOpt prices t) t with
      | error e => rw [hres] at hok; cases hok
      | ok v =>
          rw [hres] at hok
          cases v with
          | none => exact (ih l hok).cons t
          | some o2 =>
              cases hrest : processAll equity allowShort minQty minNotional
                  positions weights prices rest with
              | error e => rw [hrest] at hok; cases hok
              | ok l2 =>
                  rw [hrest] at hok
                  cases hok
                  obtain ⟨q, w, p, _, _, _, _, _, ho2, _⟩ :=
                    processSymbol_ok_some_inv _ _ _ _ _ _ _ _ _ hres
                  have : o2.symbol = t := by rw [ho2]
                  simpa [this] using (ih l2 hrest).cons₂ t

/-- The per-symbol processing emits exactly the computed order when the
price is positive, the symbol is relevant, the short check passes, and
both dust thresholds pass. -/
lemma processSymbol_emit (equity : ℚ) (allowShort : Bool) (minQty minNotional q w p : ℚ)
    (s : String) (hp : 0 < p) (hqw : ¬ (q = 0 ∧ w = 0))
    (hshort : ¬ (q + rawDelta equity q w p < 0 ∧ allowShort = false ∧
      ¬ |q + rawDelta equity q w p| < minQty))
    (hq : ¬ |snappedDelta equity allowShort q w p| < minQty)
    (hn : ¬ (|snappedDelta equity allowShort q w p| * p < minNotional ∧ ¬ w = 0)) :
    processSymbol equity allowShort minQty minNotional
      (PyVal.num q) (PyVal.num w) (PyVal.num p) s
      = Except.ok (Option.some
          { symbol := s, qty := |snappedDelta equity allowShort q w p|,
            side := sideOf (snappedDelta equity allowShort q w p),
            type := "market" }) := by
  simp only [processSymbol, validate_not_nan]
  rw [if_neg (by simp), if_neg (not_lt.mpr hp.le), if_neg hqw, if_neg hp.ne',
    if_neg hshort, if_neg hq, if_neg hn]

/-- The per-symbol processing skips (without error) whenever the price
is positive, the short check passes, and one of the dust-threshold
skips fires — including the irrelevant-symbol early exit. -/
lemma processSymbol_skip (equity : ℚ) (allowShort : Bool) (minQty minNotional q w p : ℚ)
    (s : String) (hp : 0 < p)
    (hshort : ¬ (q + rawDelta equity q w p < 0 ∧ allowShort = false ∧
      ¬ |q + rawDelta equity q w p| < minQty))
    (hskip : |snappedDelta equity allowShort q w p| < minQty ∨
      (|snappedDelta equity allowShort q w p| * p < minNotional ∧ ¬ w = 0)) :
    processSymbol equity allowShort minQty minNotional
      (PyVal.num q) (PyVal.num w) (PyVal.num p) s = Except.ok Option.none := by
  simp only [processSymbol, validate_not_nan]
  rw [if_neg (by simp), if_neg (not_lt.mpr hp.le)]
  by_cases hqw : q = 0 ∧ w = 0
  · rw [if_pos hqw]
  · rw [if_neg hqw, if_neg hp.ne', if_neg hshort]
    by_cases h1 : |snappedDelta equity allowShort q w p| < minQty
    · rw [if_pos h1]
    · rw [if_neg h1, if_pos (hskip.resolve_left h1)]

/-- The per-symbol processing raises the illegal-short error when the
final quantity is negative beyond the epsilon and shorting is
disallowed. -/
lemma processSymbol_short_error (equity minQty minNotional q w p : ℚ) (s : String)
    (hp : 0 < p) (hw : w ≠ 0)
    (hfin : q + rawDelta equity q w p < 0)
    (hbig : ¬ |q + rawDelta equity q w p| < minQty) :
    processSymbol equity false minQty minNotional
      (PyVal.num q) (PyVal.num w) (PyVal.num p) s
      = Except.error ("Calculation results in illegal short position for " ++ s) := by
  simp only [processSymbol, validate_not_nan]
  rw [if_neg (by simp), if_neg (not_lt.mpr hp.le), if_neg (fun h => hw h.2),
    if_neg hp.ne', if_pos ⟨hfin, trivial, hbig⟩]

/-- The per-symbol processing raises for a relevant symbol whose price
is zero or negative. -/
lemma processSymbol_nonpos_price_error (equity : ℚ) (allowShort : Bool)
    (minQty minNotional q w p : ℚ) (s : String)
    (hrel : q ≠ 0 ∨ w ≠ 0) (hp : p ≤ 0) :
    ∃ msg, processSymbol equity allowShort minQty minNotional
      (PyVal.num q) (PyVal.num w) (PyVal.num p) s = Except.error msg := by
  simp only [processSymbol, validate_not_nan]
  rw [if_neg (by simp)]
  rcases lt_or_eq_of_le hp with hneg | hzero
  · exact ⟨_, by rw [if_pos hneg]⟩
  · subst hzero
    rw [if_neg (lt_irrefl (0 : ℚ)),
      if_neg (fun h => by rcases hrel with h1 | h1 <;> simp_all), if_pos rfl]
    by_cases hw : w > 0
    · exact ⟨_, by rw [if_pos hw]⟩
    · exact ⟨_, by rw [if_neg hw]⟩

/-- With a validated positive equity, the calculator is exactly the
per-symbol loop over the universe. -/
lemma calculate_unfold_pos (E : ℚ) (hE : 0 < E)
    (positions weights prices : Dict) (allowShort : Bool) (minQty minNotional : ℚ) :
    calculate_rebalancing_orders (PyVal.num E) positions weights prices
      allowShort minQty minNotional
      = processAll E allowShort minQty minNotional positions weights prices
          (symbolList positions weights) := by
  simp only [calculate_rebalancing_orders, validate_not_nan]
  rw [if_neg (not_le.mpr hE)]

/-- Inversion: a normal return means the equity was a positive number
and the loop returned the order list. -/
lemma calculate_ok_inv (current_equity : PyVal)
    (positions weights prices : Dict) (allowShort : Bool) (minQty minNotional : ℚ)
    (l : List Order)
    (hok : calculate_rebalancing_orders current_equity positions weights prices
      allowShort minQty minNotional = Except.ok l) :
    ∃ E, current_equity = PyVal.num E ∧ 0 < E ∧
      processAll E allowShort minQty minNotional positions weights prices
        (symbolList positions weights) = Except.ok l := by
  cases current_equity with
  | none => simp [calculate_rebalancing_orders, validate_not_nan] at hok
  | nan => simp [calculate_rebalancing_orders, validate_not_nan] at hok
  | num E =>
      simp only [calculate_rebalancing_orders, validate_not_nan] at hok
      split_ifs at hok with hE
      exact ⟨E, rfl, not_le.mp hE, hok⟩

/-- The universe of a one-symbol portfolio. -/
lemma symbolList_single (s : String) (hs : s ≠ "CASH") (a b : PyVal) :
    symbolList [(s, a)] [(s, b)] = [s] := by
  simp only [symbolList, dictKeys, List.map_cons, List.map_nil, List.cons_append,
    List.nil_append]
  rw [List.dedup_cons_of_mem (by simp), List.dedup_cons_of_not_mem (by simp),
    List.dedup_nil]
  simp [hs]

/-- The loop over a one-symbol universe. -/
lemma processAll_single (E : ℚ) (allowShort : Bool) (minQty minNotional : ℚ)
    (s : String) (a b c : PyVal) :
    processAll E allowShort minQty minNotional [(s, a)] [(s, b)] [(s, c)] [s]
      = match processSymbol E allowShort minQty minNotional a b c s with
        | Except.error e => Except.error e
        | Except.ok Option.none => Except.ok []
        | Except.ok (Option.some o) => Except.ok [o] := by
  have ha : dictGet [(s, a)] s (PyVal.num 0) = a := by
    simp [dictGet, List.lookup]
  have hb : dictGet [(s, b)] s (PyVal.num 0) = b := by
    simp [dictGet, List.lookup]
  have hc : dictGetOpt [(s, c)] s = c := by
    simp [dictGetOpt, List.lookup]
  simp only [processAll, ha, hb, hc]

/-- A concrete scenario shared by several witnesses: equity 10000,
holding 10 AAPL at price 150, target weights AAPL 1/2 and CASH 1/2;
the calculator buys 70/3 more AAPL shares. -/
lemma calc_cash_scenario :
    calculate_rebalancing_orders (PyVal.num 10000) [("AAPL", PyVal.num 10)]
      [("AAPL", PyVal.num (1/2)), ("CASH", PyVal.num (1/2))] [("AAPL", PyVal.num 150)]
      false MIN_QTY_THRESHOLD MIN_TRADE_VALUE_THRESHOLD
      = Except.ok
          [{ symbol := "AAPL", qty := 70/3, side := "buy", type := "market" }] := by
  have hδ : snappedDelta 10000 false 10 (1/2) 150 = 70/3 := by
    norm_num [snappedDelta, rawDelta]
  have e1 : processSymbol 10000 false MIN_QTY_THRESHOLD MIN_TRADE_VALUE_THRESHOLD
      (PyVal.num 10) (PyVal.num (1/2)) (PyVal.num 150) "AAPL"
      = Except.ok (Option.some
          { symbol := "AAPL", qty := 70/3, side := "buy", type := "market" }) := by
    have h := processSymbol_emit 10000 false MIN_QTY_THRESHOLD
      MIN_TRADE_VALUE_THRESHOLD 10 (1/2) 150 "AAPL"
      (by norm_num) (by norm_num) (by norm_num [rawDelta])
      (by rw [hδ, abs_of_pos (by norm_num)]; norm_num [MIN_QTY_THRESHOLD])
      (by rw [hδ, abs_of_pos (by norm_num)]; norm_num [MIN_TRADE_VALUE_THRESHOLD])
    rw [hδ] at h
    rw [h]
    norm_num [sideOf, abs_of_pos]
  rw [calculate_unfold_pos 10000 (by norm_num)]
  have hsl : symbolList [("AAPL", PyVal.num 10)]
      [("AAPL", PyVal.num (1/2)), ("CASH", PyVal.num (1/2))] = ["AAPL"] := by rfl
  rw [hsl]
  have d1 : dictGet [("AAPL", PyVal.num 10)] "AAPL" (PyVal.num 0)
      = PyVal.num 10 := rfl
  have d2 : dictGet [("AAPL", PyVal.num (1/2)), ("CASH", PyVal.num (1/2))] "AAPL"
      (PyVal.num 0) = PyVal.num (1/2) := rfl
  have d3 : dictGetOpt [("AAPL", PyVal.num 150)] "AAPL" = PyVal.num 150 := rfl
  simp only [processAll, d1, d2, d3, e1]

/-! ### Claim theorems -/

/-- C1: the claim says a symbol with zero quantity and zero target
weight is skipped without requiring a price, raising no error even when
the symbol is absent from the price map or has a NaN price.  The code
does NOT do this: the `Decimal(str(raw_price))` conversion and the
negative-price comparison run BEFORE the zero/zero skip, so a missing
price (`None`) raises `InvalidOperation` inside the conversion and a
NaN price raises `InvalidOperation` in the `< 0` comparison, both
re-raised as the "Non-numeric data found" `ValueError`.  This theorem
evaluates the embedded code at the failing inputs: equity 10000, one
symbol AAPL with quantity 0, no target weight (defaults to 0), and a
price that is (i) absent, (ii) NaN. -/
theorem claim_C1_irrelevant_symbol_missing_price_raises :
    calculate_rebalancing_orders (PyVal.num 10000) [("AAPL", PyVal.num 0)] [] []
      false MIN_QTY_THRESHOLD MIN_TRADE_VALUE_THRESHOLD
      = Except.error "Non-numeric data found for AAPL" ∧
    calculate_rebalancing_orders (PyVal.num 10000) [("AAPL", PyVal.num 0)] []
      [("AAPL", PyVal.nan)] false MIN_QTY_THRESHOLD MIN_TRADE_VALUE_THRESHOLD
      = Except.error "Non-numeric data found for AAPL" :=
  ⟨rfl, rfl⟩

/-- C5: with equity 10000, positions AAPL 40 and MSFT 60, target
weights AAPL 0.6 and MSFT 0.4, both prices 100, and shorting
disallowed, the calculator returns exactly a market buy of 20 AAPL and
a market sell of 20 MSFT (deltaQty = equity * weight / price - qty),
for any thresholds that do not swallow a 20-share / 2000-dollar trade
(the real constants are far below these bounds). -/
theorem claim_C5_concrete_two_order_rebalance (minQty minNotional : ℚ)
    (hq : minQty ≤ 20) (hn : minNotional ≤ 2000) :
    calculate_rebalancing_orders (PyVal.num 10000)
      [("AAPL", PyVal.num 40), ("MSFT", PyVal.num 60)]
      [("AAPL", PyVal.num (6/10)), ("MSFT", PyVal.num (4/10))]
      [("AAPL", PyVal.num 100), ("MSFT", PyVal.num 100)]
      false minQty minNotional
      = Except.ok
          [{ symbol := "AAPL", qty := 20, side := "buy", type := "market" },
           { symbol := "MSFT", qty := 20, side := "sell", type := "market" }] := by
  have hδ1 : snappedDelta 10000 false 40 (6/10) 100 = 20 := by
    norm_num [snappedDelta, rawDelta]
  have hδ2 : snappedDelta 10000 false 60 (4/10) 100 = -20 := by
    norm_num [snappedDelta, rawDelta]
  have e1 : processSymbol 10000 false minQty minNotional
      (PyVal.num 40) (PyVal.num (6/10)) (PyVal.num 100) "AAPL"
      = Except.ok (Option.some
          { symbol := "AAPL", qty := 20, side := "buy", type := "market" }) := by
    have h := processSymbol_emit 10000 false minQty minNotional 40 (6/10) 100 "AAPL"
      (by norm_num) (by norm_num) (by norm_num [rawDelta])
      (by rw [hδ1]; intro hlt; rw [abs_of_pos (by norm_num)] at hlt; linarith)
      (by rw [hδ1]; intro hcon; rw [abs_of_pos (by norm_num)] at hcon; linarith [hcon.1])
    rw [hδ1] at h
    rw [h]
    norm_num [sideOf, abs_of_pos]
  have e2 : processSymbol 10000 false minQty minNotional
      (PyVal.num 60) (PyVal.num (4/10)) (PyVal.num 100) "MSFT"
      = Except.ok (Option.some
          { symbol := "MSFT", qty := 20, side := "sell", type := "market" }) := by
    have h := processSymbol_emit 10000 false minQty minNotional 60 (4/10) 100 "MSFT"
      (by norm_num) (by norm_num) (by norm_num [rawDelta])
      (by rw [hδ2]; intro hlt; rw [abs_of_neg (by norm_num)] at hlt; linarith)
      (by rw [hδ2]; intro hcon; rw [abs_of_neg (by norm_num)] at hcon; linarith [hcon.1])
    rw [hδ2] at h
    rw [h]
    norm_num [sideOf, abs_of_neg]
  rw [calculate_unfold_pos 10000 (by norm_num)]
  have hsl : symbolList
      [("AAPL", PyVal.num 40), ("MSFT", PyVal.num 60)]
      [("AAPL", PyVal.num (6/10)), ("MSFT", PyVal.num (4/10))]
      = ["AAPL", "MSFT"] := by rfl
  rw [hsl]
  have d1 : dictGet [("AAPL", PyVal.num 40), ("MSFT", PyVal.num 60)] "AAPL"
      (PyVal.num 0) = PyVal.num 40 := rfl
  have d2 : dictGet [("AAPL", PyVal.num (6/10)), ("MSFT", PyVal.num (4/10))] "AAPL"
      (PyVal.num 0) = PyVal.num (6/10) := rfl
  have d3 : dictGetOpt [("AAPL", PyVal.num 100), ("MSFT", PyVal.num 100)] "AAPL"
      = PyVal.num 100 := rfl
  have d4 : dictGet [("AAPL", PyVal.num 40), ("MSFT", PyVal.num 60)] "MSFT"
      (PyVal.num 0) = PyVal.num 60 := rfl
  have d5 : dictGet [("AAPL", PyVal.num (6/10)), ("MSFT", PyVal.num (4/10))] "MSFT"
      (PyVal.num 0) = PyVal.num (4/10) := rfl
  have d6 : dictGetOpt [("AAPL", PyVal.num 100), ("MSFT", PyVal.num 100)] "MSFT"
      = PyVal.num 100 := rfl
  simp only [processAll, d1, d2, d3, d4, d5, d6, e1, e2]

/-- C5 witness: the theorem applied at the modelled threshold
constants. -/
theorem claim_C5_concrete_two_order_rebalance_witness :
    calculate_rebalancing_orders (PyVal.num 10000)
      [("AAPL", PyVal.num 40), ("MSFT", PyVal.num 60)]
      [("AAPL", PyVal.num (6/10)), ("MSFT", PyVal.num (4/10))]
      [("AAPL", PyVal.num 100), ("MSFT", PyVal.num 100)]
      false MIN_QTY_THRESHOLD MIN_TRADE_VALUE_THRESHOLD
      = Except.ok
          [{ symbol := "AAPL", qty := 20, side := "buy", type := "market" },
           { symbol := "MSFT", qty := 20, side := "sell", type := "market" }] :=
  claim_C5_concrete_two_order_rebalance MIN_QTY_THRESHOLD MIN_TRADE_VALUE_THRESHOLD
    (by norm_num [MIN_QTY_THRESHOLD]) (by norm_num [MIN_TRADE_VALUE_THRESHOLD])

/-- C7: zero or negative (non-NaN, non-missing) equity raises the
non-positive-equity error regardless of the position, weight and price
maps, and no orders are returned. -/
theorem claim_C7_nonpositive_equity_raises (E : ℚ) (hE : E ≤ 0)
    (positions weights prices : Dict) (allowShort : Bool) (minQty minNotional : ℚ) :
    calculate_rebalancing_orders (PyVal.num E) positions weights prices
      allowShort minQty minNotional
      = Except.error "Current equity must be positive." := by
  simp only [calculate_rebalancing_orders, validate_not_nan]
  rw [if_pos hE]

/-- C7 witness: equity 0 with a nonempty portfolio. -/
theorem claim_C7_nonpositive_equity_raises_witness :
    calculate_rebalancing_orders (PyVal.num 0) [("AAPL", PyVal.num 10)]
      [("AAPL", PyVal.num (1/2))] [("AAPL", PyVal.num 150)]
      false MIN_QTY_THRESHOLD MIN_TRADE_VALUE_THRESHOLD
      = Except.error "Current equity must be positive." :=
  claim_C7_nonpositive_equity_raises 0 le_rfl _ _ _ _ _ _

/-- C8: `validate_not_nan` raises exactly on `None` (missing) and NaN,
and accepts exactly the numeric values (negative, zero, large included)
unchanged. -/
theorem claim_C8_validate_not_nan_iff (name : String) (value : PyVal) :
    ((∃ msg, validate_not_nan name value = Except.error msg) ↔
      value = PyVal.none ∨ value = PyVal.nan) ∧
    (validate_not_nan name value = Except.ok () ↔ ∃ q, value = PyVal.num q) := by
  cases value <;> simp [validate_not_nan]

/-- C6: a symbol of the processed universe with nonzero quantity or
nonzero weight and a price of exactly 0 makes the calculator raise, for
buying (weight > 0) and liquidating (weight = 0) alike, and a negative
price raises as well (stated as `p ≤ 0`); this holds for every equity
input and both shorting modes, so a zero price is never a benign
sell-at-zero. -/
theorem claim_C6_nonpositive_price_raises (current_equity : PyVal)
    (positions weights prices : Dict) (allowShort : Bool) (minQty minNotional : ℚ)
    (s : String) (q w p : ℚ)
    (hs : s ∈ symbolList positions weights)
    (hq : dictGet positions s (PyVal.num 0) = PyVal.num q)
    (hw : dictGet weights s (PyVal.num 0) = PyVal.num w)
    (hrel : q ≠ 0 ∨ w ≠ 0)
    (hp : dictGetOpt prices s = PyVal.num p)
    (hp0 : p ≤ 0) :
    ∃ msg, calculate_rebalancing_orders current_equity positions weights prices
      allowShort minQty minNotional = Except.error msg := by
  cases current_equity with
  | none => exact ⟨_, rfl⟩
  | nan => exact ⟨_, rfl⟩
  | num E =>
      by_cases hE : E ≤ 0
      · refine ⟨"Current equity must be positive.", ?_⟩
        simp only [calculate_rebalancing_orders, validate_not_nan]
        rw [if_pos hE]
      · obtain ⟨msg, hmsg⟩ := processSymbol_nonpos_price_error E allowShort
          minQty minNotional q w p s hrel hp0
        rw [calculate_unfold_pos E (not_le.mp hE)]
        exact processAll_error_of_mem E allowShort minQty minNotional
          positions weights prices _ s msg hs (by rw [hq, hw, hp]; exact hmsg)

/-- C6 witness: AAPL held with target weight 1/2 but a price of exactly
0 raises. -/
theorem claim_C6_nonpositive_price_raises_witness :
    ∃ msg, calculate_rebalancing_orders (PyVal.num 10000) [("AAPL", PyVal.num 10)]
      [("AAPL", PyVal.num (1/2))] [("AAPL", PyVal.num 0)]
      false MIN_QTY_THRESHOLD MIN_TRADE_VALUE_THRESHOLD = Except.error msg :=
  claim_C6_nonpositive_price_raises (PyVal.num 10000) [("AAPL", PyVal.num 10)]
    [("AAPL", PyVal.num (1/2))] [("AAPL", PyVal.num 0)]
    false MIN_QTY_THRESHOLD MIN_TRADE_VALUE_THRESHOLD "AAPL" 10 (1/2) 0
    (by decide) rfl rfl (Or.inl (by norm_num)) rfl le_rfl

/-- C9: when the reserved `CASH` key appears among the position or
weight keys, no returned order references `CASH` (the universe is built
with `CASH` removed, and every order names its universe symbol). -/
theorem claim_C9_cash_never_traded (current_equity : PyVal)
    (positions weights prices : Dict) (allowShort : Bool) (minQty minNotional : ℚ)
    (hcash : "CASH" ∈ dictKeys positions ∨ "CASH" ∈ dictKeys weights)
    (l : List Order) (o : Order)
    (hok : calculate_rebalancing_orders current_equity positions weights prices
      allowShort minQty minNotional = Except.ok l)
    (ho : o ∈ l) :
    o.symbol ≠ "CASH" := by
  obtain ⟨E, hEeq, hE, hall⟩ := calculate_ok_inv _ _ _ _ _ _ _ _ hok
  obtain ⟨s, hs, hps⟩ := processAll_ok_mem _ _ _ _ _ _ _ _ _ _ hall ho
  obtain ⟨q, w, p, _, _, _, _, _, hoeq, _⟩ :=
    processSymbol_ok_some_inv _ _ _ _ _ _ _ _ _ hps
  have hsym : o.symbol = s := by rw [hoeq]
  rw [hsym]
  exact fun hcontra => cash_not_mem_symbolList positions weights (hcontra ▸ hs)

/-- C9 witness: a weight map containing `CASH`; the emitted AAPL order
does not reference `CASH`. -/
theorem claim_C9_cash_never_traded_witness :
    ({ symbol := "AAPL", qty := 70/3, side := "buy", type := "market" } : Order).symbol
      ≠ "CASH" :=
  claim_C9_cash_never_traded (PyVal.num 10000) [("AAPL", PyVal.num 10)]
    [("AAPL", PyVal.num (1/2)), ("CASH", PyVal.num (1/2))] [("AAPL", PyVal.num 150)]
    false MIN_QTY_THRESHOLD MIN_TRADE_VALUE_THRESHOLD (Or.inr (by decide))
    [{ symbol := "AAPL", qty := 70/3, side := "buy", type := "market" }]
    { symbol := "AAPL", qty := 70/3, side := "buy", type := "market" }
    calc_cash_scenario (by simp)

/-- C10: on every normal return the order list has at most one order
per symbol; every order has quantity at least the (positive)
minimum-quantity epsilon (hence strictly positive), kind `market`, and
side `buy` exactly when its possibly snap-adjusted delta is positive,
`sell` otherwise, with quantity the absolute delta. -/
theorem claim_C10_output_invariants (E : ℚ)
    (positions weights prices : Dict) (allowShort : Bool) (minQty minNotional : ℚ)
    (hmq : 0 < minQty) (l : List Order)
    (hok : calculate_rebalancing_orders (PyVal.num E) positions weights prices
      allowShort minQty minNotional = Except.ok l) :
    (l.map Order.symbol).Nodup ∧
    ∀ o ∈ l, 0 < o.qty ∧ minQty ≤ o.qty ∧ o.type = "market" ∧
      ∃ q w p, dictGet positions o.symbol (PyVal.num 0) = PyVal.num q ∧
        dictGet weights o.symbol (PyVal.num 0) = PyVal.num w ∧
        dictGetOpt prices o.symbol = PyVal.num p ∧
        o.qty = |snappedDelta E allowShort q w p| ∧
        o.side = sideOf (snappedDelta E allowShort q w p) := by
  obtain ⟨E2, hEeq, hE, hall⟩ := calculate_ok_inv _ _ _ _ _ _ _ _ hok
  have hE2 : E2 = E := by cases hEeq; rfl
  subst hE2
  constructor
  · exact (processAll_map_symbol_sublist _ _ _ _ _ _ _ _ _ hall).nodup
      (symbolList_nodup _ _)
  · intro o ho
    obtain ⟨s, hs, hps⟩ := processAll_ok_mem _ _ _ _ _ _ _ _ _ _ hall ho
    obtain ⟨q, w, p, hq, hw, hp, hppos, hqw, hoeq, hminq, hnot⟩ :=
      processSymbol_ok_some_inv _ _ _ _ _ _ _ _ _ hps
    have hsym : o.symbol = s := by rw [hoeq]
    have hqty : o.qty = |snappedDelta E2 allowShort q w p| := by rw [hoeq]
    have hside : o.side = sideOf (snappedDelta E2 allowShort q w p) := by rw [hoeq]
    have htype : o.type = "market" := by rw [hoeq]
    refine ⟨?_, ?_, htype, q, w, p, ?_, ?_, ?_, hqty, hside⟩
    · rw [hqty]; exact lt_of_lt_of_le hmq hminq
    · rw [hqty]; exact hminq
    · rw [hsym]; exact hq
    · rw [hsym]; exact hw
    · rw [hsym]; exact hp

/-- C10 witness: the invariants instantiated on a concrete one-order
rebalance. -/
theorem claim_C10_output_invariants_witness :
    (([{ symbol := "AAPL", qty := 70/3, side := "buy", type := "market" }] :
        List Order).map Order.symbol).Nodup ∧
    ∀ o ∈ ([{ symbol := "AAPL", qty := 70/3, side := "buy", type := "market" }] :
        List Order),
      0 < o.qty ∧ MIN_QTY_THRESHOLD ≤ o.qty ∧ o.type = "market" ∧
      ∃ q w p, dictGet [("AAPL", PyVal.num 10)] o.symbol (PyVal.num 0)
          = PyVal.num q ∧
        dictGet [("AAPL", PyVal.num (1/2)), ("CASH", PyVal.num (1/2))] o.symbol
          (PyVal.num 0) = PyVal.num w ∧
        dictGetOpt [("AAPL", PyVal.num 150)] o.symbol = PyVal.num p ∧
        o.qty = |snappedDelta 10000 false q w p| ∧
        o.side = sideOf (snappedDelta 10000 false q w p) :=
  claim_C10_output_invariants 10000 [("AAPL", PyVal.num 10)]
    [("AAPL", PyVal.num (1/2)), ("CASH", PyVal.num (1/2))] [("AAPL", PyVal.num 150)]
    false MIN_QTY_THRESHOLD MIN_TRADE_VALUE_THRESHOLD
    (by norm_num [MIN_QTY_THRESHOLD]) _ calc_cash_scenario

/-- C2 counterexample: a dust position (1/2 share at price 1, i.e. 50
cents) with target weight 0 is within the notional threshold of its
target, yet the liquidation override emits a sell order, so the output
is not empty and the claim as stated fails. -/
theorem claim_C2_balanced_counterexample :
    |(1/2 : ℚ) * 1 - 10000 * 0| < MIN_TRADE_VALUE_THRESHOLD ∧
    calculate_rebalancing_orders (PyVal.num 10000) [("AAPL", PyVal.num (1/2))]
      [("AAPL", PyVal.num 0)] [("AAPL", PyVal.num 1)]
      false MIN_QTY_THRESHOLD MIN_TRADE_VALUE_THRESHOLD
      = Except.ok
          [{ symbol := "AAPL", qty := 1/2, side := "sell", type := "market" }] ∧
    (Except.ok
        [{ symbol := "AAPL", qty := 1/2, side := "sell", type := "market" }]
      ≠ (Except.ok [] : Except String (List Order))) := by
  have habs : |(-(1/2) : ℚ)| = 1/2 := by
    rw [abs_neg, abs_of_pos]; norm_num
  have hδ : snappedDelta 10000 false (1/2) 0 1 = -(1/2) := by
    norm_num [snappedDelta, rawDelta]
  refine ⟨?_, ?_, by simp⟩
  · rw [show ((1/2 : ℚ) * 1 - 10000 * 0) = 1/2 by ring, abs_of_pos (by norm_num)]
    norm_num [MIN_TRADE_VALUE_THRESHOLD]
  · have e1 : processSymbol 10000 false MIN_QTY_THRESHOLD MIN_TRADE_VALUE_THRESHOLD
        (PyVal.num (1/2)) (PyVal.num 0) (PyVal.num 1) "AAPL"
        = Except.ok (Option.some
            { symbol := "AAPL", qty := 1/2, side := "sell", type := "market" }) := by
      have h := processSymbol_emit 10000 false MIN_QTY_THRESHOLD
        MIN_TRADE_VALUE_THRESHOLD (1/2) 0 1 "AAPL"
        (by norm_num) (by norm_num) (by norm_num [rawDelta])
        (by rw [hδ, habs]; norm_num [MIN_QTY_THRESHOLD])
        (by simp)
      rw [hδ] at h
      rw [h, habs]
      norm_num [sideOf]
    rw [calculate_unfold_pos 10000 (by norm_num),
      symbolList_single "AAPL" (by decide) _ _, processAll_single, e1]

/-- C2, amended: a portfolio in which every symbol is within the
notional threshold of its target returns no orders PROVIDED that no
symbol is a pending full liquidation (target weight 0 with quantity at
or above the minimum-quantity epsilon — such dust is sold by the
liquidation override) and that no symbol carries a negative target
weight while shorting is disallowed (the short check fires on the final
holding even when no trade is needed).  Prices must be present and
positive for every symbol of the universe (the zero/zero skip raises on
a missing price, see C1). -/
theorem claim_C2_balanced_portfolio_amended (E : ℚ)
    (positions weights prices : Dict) (allowShort : Bool) (minQty minNotional : ℚ)
    (hE : 0 < E)
    (hall : ∀ s ∈ symbolList positions weights, ∃ q w p,
      dictGet positions s (PyVal.num 0) = PyVal.num q ∧
      dictGet weights s (PyVal.num 0) = PyVal.num w ∧
      dictGetOpt prices s = PyVal.num p ∧ 0 < p ∧
      |q * p - E * w| < minNotional ∧
      (w = 0 → |q| < minQty) ∧
      (w < 0 → allowShort = true)) :
    calculate_rebalancing_orders (PyVal.num E) positions weights prices
      allowShort minQty minNotional = Except.ok [] := by
  rw [calculate_unfold_pos E hE]
  apply processAll_ok_of_all_skip
  intro s hs
  obtain ⟨q, w, p, hq, hw, hp, hppos, hbal, hliq, hshortw⟩ := hall s hs
  rw [hq, hw, hp]
  have hfin : q + rawDelta E q w p = E * w / p := by
    unfold rawDelta; ring
  have hnosnap : ¬ (q + rawDelta E q w p < 0 ∧ allowShort = false) := by
    rintro ⟨hneg, hshort⟩
    rw [hfin] at hneg
    have hwneg : w < 0 := by
      by_contra hge
      push_neg at hge
      exact absurd hneg
        (not_lt.mpr (div_nonneg (mul_nonneg hE.le hge) hppos.le))
    rw [hshortw hwneg] at hshort
    cases hshort
  have hδ : snappedDelta E allowShort q w p = rawDelta E q w p := by
    unfold snappedDelta
    rw [if_neg hnosnap]
  apply processSymbol_skip E allowShort minQty minNotional q w p s hppos
    (fun h => hnosnap ⟨h.1, h.2.1⟩)
  by_cases hsmall : |snappedDelta E allowShort q w p| < minQty
  · exact Or.inl hsmall
  · refine Or.inr ⟨?_, ?_⟩
    · rw [hδ]
      have hrw : rawDelta E q w p = (E * w - q * p) / p := by
        unfold rawDelta; field_simp; ring
      rw [hrw, abs_div, abs_of_pos hppos, div_mul_cancel₀ _ hppos.ne']
      rw [abs_sub_comm]
      exact hbal
    · intro hw0
      apply hsmall
      rw [hδ, hw0]
      unfold rawDelta
      rw [mul_zero, zero_div, zero_sub, abs_neg]
      exact hliq hw0

/-- C2 witness: the amended theorem on a perfectly balanced one-symbol
portfolio (50 shares at price 100 is exactly weight 1/2 of equity
10000). -/
theorem claim_C2_balanced_portfolio_amended_witness :
    calculate_rebalancing_orders (PyVal.num 10000) [("AAPL", PyVal.num 50)]
      [("AAPL", PyVal.num (1/2))] [("AAPL", PyVal.num 100)]
      false MIN_QTY_THRESHOLD MIN_TRADE_VALUE_THRESHOLD = Except.ok [] := by
  apply claim_C2_balanced_portfolio_amended 10000 _ _ _ false _ _ (by norm_num)
  intro s hs
  rw [show symbolList [("AAPL", PyVal.num 50)] [("AAPL", PyVal.num (1/2))]
    = ["AAPL"] from rfl] at hs
  rw [List.mem_singleton] at hs
  subst hs
  refine ⟨50, 1/2, 100, rfl, rfl, rfl, by norm_num, ?_, ?_, ?_⟩
  · rw [show ((50 : ℚ) * 100 - 10000 * (1/2)) = 0 by ring, abs_zero]
    norm_num [MIN_TRADE_VALUE_THRESHOLD]
  · intro h; exact absurd h (by norm_num)
  · intro h; exact absurd h (by norm_num)

/-- C3 counterexample: a target implying a short of half a share
(beyond the epsilon) at a notional of 50 cents.  With `allow_short =
true` the claim demands a sell order, but the minimum-notional dust
filter swallows the trade and the calculator returns no orders at
all. -/
theorem claim_C3_short_guard_counterexample :
    (10000 * (-5/100000) / 1 : ℚ) ≤ -MIN_QTY_THRESHOLD ∧
    calculate_rebalancing_orders (PyVal.num 10000) [("AAPL", PyVal.num 0)]
      [("AAPL", PyVal.num (-5/100000))] [("AAPL", PyVal.num 1)]
      true MIN_QTY_THRESHOLD MIN_TRADE_VALUE_THRESHOLD = Except.ok [] := by
  have habs : |(-(1/2) : ℚ)| = 1/2 := by
    rw [abs_neg, abs_of_pos]; norm_num
  have hδ : snappedDelta 10000 true 0 (-5/100000) 1 = -(1/2) := by
    norm_num [snappedDelta, rawDelta]
  refine ⟨by norm_num [MIN_QTY_THRESHOLD], ?_⟩
  rw [calculate_unfold_pos 10000 (by norm_num),
    symbolList_single "AAPL" (by decide) _ _, processAll_single]
  rw [processSymbol_skip 10000 true MIN_QTY_THRESHOLD MIN_TRADE_VALUE_THRESHOLD
    0 (-5/100000) 1 "AAPL" (by norm_num) (by simp)
    (Or.inr ⟨by rw [hδ, habs]; norm_num [MIN_TRADE_VALUE_THRESHOLD], by norm_num⟩)]

/-- C3, amended.  Part (a): an input whose target quantity
`equity * weight / price` is at or below minus the minimum-quantity
epsilon with `allow_short = false` makes the calculator raise (no
orders).  Part (b): when the negative final quantity is within the
epsilon, the delta is snapped to exactly minus the current quantity
instead of raising: for a one-symbol portfolio the result is either no
order (dust) or a sell of exactly the held quantity.  Part (c): with
`allow_short = true` the same short-implying input yields the sell
order PROVIDED the trade passes the minimum-notional dust filter
(amendment forced by the counterexample: a dust-sized short target
emits nothing). -/
theorem claim_C3_short_guard_amended :
    (∀ (E : ℚ) (positions weights prices : Dict) (minQty minNotional : ℚ)
       (s : String) (q w p : ℚ),
      0 < minQty → 0 < E →
      s ∈ symbolList positions weights →
      dictGet positions s (PyVal.num 0) = PyVal.num q →
      dictGet weights s (PyVal.num 0) = PyVal.num w →
      dictGetOpt prices s = PyVal.num p → 0 < p →
      E * w / p ≤ -minQty →
      ∃ msg, calculate_rebalancing_orders (PyVal.num E) positions weights prices
        false minQty minNotional = Except.error msg) ∧
    (∀ (E minQty minNotional q w p : ℚ) (s : String),
      s ≠ "CASH" → 0 < E → 0 < p → 0 ≤ q →
      -minQty < E * w / p → E * w / p < 0 →
      calculate_rebalancing_orders (PyVal.num E) [(s, PyVal.num q)]
        [(s, PyVal.num w)] [(s, PyVal.num p)] false minQty minNotional
        = Except.ok [] ∨
      calculate_rebalancing_orders (PyVal.num E) [(s, PyVal.num q)]
        [(s, PyVal.num w)] [(s, PyVal.num p)] false minQty minNotional
        = Except.ok
            [{ symbol := s, qty := q, side := "sell", type := "market" }]) ∧
    (∀ (E minQty minNotional q w p : ℚ) (s : String),
      s ≠ "CASH" → 0 < minQty → 0 < E → 0 < p → 0 ≤ q →
      E * w / p ≤ -minQty → minNotional ≤ (q - E * w / p) * p →
      calculate_rebalancing_orders (PyVal.num E) [(s, PyVal.num q)]
        [(s, PyVal.num w)] [(s, PyVal.num p)] true minQty minNotional
        = Except.ok
            [{ symbol := s, qty := q - E * w / p, side := "sell",
               type := "market" }]) := by
  refine ⟨?_, ?_, ?_⟩
  · -- (a) the illegal-short error, over arbitrary maps
    intro E positions weights prices minQty minNotional s q w p
      hmq hE hs hq hw hp hppos htgt
    have hw0 : w ≠ 0 := by
      rintro rfl
      rw [mul_zero, zero_div] at htgt
      linarith
    have hfin : q + rawDelta E q w p = E * w / p := by
      unfold rawDelta; ring
    have herr := processSymbol_short_error E minQty minNotional q w p s hppos hw0
      (by rw [hfin]; linarith)
      (by rw [hfin]; intro habs; rw [abs_of_neg (by linarith)] at habs; linarith)
    rw [calculate_unfold_pos E hE]
    exact processAll_error_of_mem E false minQty minNotional
      positions weights prices _ s _ hs (by rw [hq, hw, hp]; exact herr)
  · -- (b) the snap-to-full-close zone
    intro E minQty minNotional q w p s hs hE hppos hq0 hgt hlt
    have hfin : q + rawDelta E q w p = E * w / p := by
      unfold rawDelta; ring
    have hsnap : snappedDelta E false q w p = -q := by
      unfold snappedDelta
      rw [if_pos ⟨by rw [hfin]; exact hlt, rfl⟩]
    have habs : |snappedDelta E false q w p| = q := by
      rw [hsnap, abs_neg, abs_of_nonneg hq0]
    have hshortok : ¬ (q + rawDelta E q w p < 0 ∧ false = false ∧
        ¬ |q + rawDelta E q w p| < minQty) := by
      rintro ⟨h1, -, h3⟩
      apply h3
      rw [hfin] at h1 ⊢
      rw [abs_of_neg h1]
      linarith
    rw [calculate_unfold_pos E hE, symbolList_single s hs _ _, processAll_single]
    by_cases hsm : |snappedDelta E false q w p| < minQty
    · left
      rw [processSymbol_skip E false minQty minNotional q w p s hppos hshortok
        (Or.inl hsm)]
    · by_cases hnot : |snappedDelta E false q w p| * p < minNotional ∧ ¬ w = 0
      · left
        rw [processSymbol_skip E false minQty minNotional q w p s hppos hshortok
          (Or.inr hnot)]
      · right
        have hqw : ¬ (q = 0 ∧ w = 0) := by
          rintro ⟨-, rfl⟩
          rw [mul_zero, zero_div] at hlt
          exact lt_irrefl 0 hlt
        rw [processSymbol_emit E false minQty minNotional q w p s hppos hqw
          hshortok hsm hnot]
        have hside : sideOf (snappedDelta E false q w p) = "sell" := by
          rw [hsnap]
          unfold sideOf
          rw [if_neg (by linarith)]
        rw [habs, hside]
  · -- (c) allow_short = true emits the sell, given the notional passes
    intro E minQty minNotional q w p s hs hmq hE hppos hq0 htgt hnotional
    have hsnap : snappedDelta E true q w p = rawDelta E q w p := by
      unfold snappedDelta
      rw [if_neg (fun h => by cases h.2)]
    have hraw : rawDelta E q w p = E * w / p - q := rfl
    have hrawneg : rawDelta E q w p < 0 := by
      rw [hraw]; linarith
    have habs : |snappedDelta E true q w p| = q - E * w / p := by
      rw [hsnap, abs_of_neg hrawneg, hraw]
      ring
    have hshortok : ¬ (q + rawDelta E q w p < 0 ∧ true = false ∧
        ¬ |q + rawDelta E q w p| < minQty) := fun h => by cases h.2.1
    have hqw : ¬ (q = 0 ∧ w = 0) := by
      rintro ⟨-, rfl⟩
      rw [mul_zero, zero_div] at htgt
      linarith
    have hsm : ¬ |snappedDelta E true q w p| < minQty := by
      rw [habs]
      intro hcon
      linarith
    have hnot : ¬ (|snappedDelta E true q w p| * p < minNotional ∧ ¬ w = 0) := by
      rintro ⟨hcon, -⟩
      rw [habs] at hcon
      linarith
    rw [calculate_unfold_pos E hE, symbolList_single s hs _ _, processAll_single]
    rw [processSymbol_emit E true minQty minNotional q w p s hppos hqw
      hshortok hsm hnot]
    have hside : sideOf (snappedDelta E true q w p) = "sell" := by
      rw [hsnap]
      unfold sideOf
      rw [if_neg (by rw [hraw]; intro hcon; linarith)]
    rw [habs, hside]

/-- C3 witness: the three parts at concrete inputs — (a) a real short
target raises with shorting disallowed, (b) a microscopic short target
snaps, (c) with shorting allowed a large short target sells. -/
theorem claim_C3_short_guard_amended_witness :
    (∃ msg, calculate_rebalancing_orders (PyVal.num 10000)
      [("AAPL", PyVal.num 0)] [("AAPL", PyVal.num (-1/10))]
      [("AAPL", PyVal.num 150)] false MIN_QTY_THRESHOLD MIN_TRADE_VALUE_THRESHOLD
      = Except.error msg) ∧
    (calculate_rebalancing_orders (PyVal.num 10000) [("AAPL", PyVal.num 10)]
      [("AAPL", PyVal.num (-1/1000000000000))] [("AAPL", PyVal.num 1)]
      false MIN_QTY_THRESHOLD MIN_TRADE_VALUE_THRESHOLD = Except.ok [] ∨
     calculate_rebalancing_orders (PyVal.num 10000) [("AAPL", PyVal.num 10)]
      [("AAPL", PyVal.num (-1/1000000000000))] [("AAPL", PyVal.num 1)]
      false MIN_QTY_THRESHOLD MIN_TRADE_VALUE_THRESHOLD
      = Except.ok
          [{ symbol := "AAPL", qty := 10, side := "sell", type := "market" }]) ∧
    calculate_rebalancing_orders (PyVal.num 10000) [("AAPL", PyVal.num 10)]
      [("AAPL", PyVal.num (-1/10))] [("AAPL", PyVal.num 1)]
      true MIN_QTY_THRESHOLD MIN_TRADE_VALUE_THRESHOLD
      = Except.ok
          [{ symbol := "AAPL", qty := 10 - 10000 * (-1/10) / 1, side := "sell",
             type := "market" }] :=
  ⟨claim_C3_short_guard_amended.1 10000 [("AAPL", PyVal.num 0)]
      [("AAPL", PyVal.num (-1/10))] [("AAPL", PyVal.num 150)]
      MIN_QTY_THRESHOLD MIN_TRADE_VALUE_THRESHOLD "AAPL" 0 (-1/10) 150
      (by norm_num [MIN_QTY_THRESHOLD]) (by norm_num) (by decide) rfl rfl rfl
      (by norm_num) (by norm_num [MIN_QTY_THRESHOLD]),
   claim_C3_short_guard_amended.2.1 10000 MIN_QTY_THRESHOLD
      MIN_TRADE_VALUE_THRESHOLD 10 (-1/1000000000000) 1 "AAPL" (by decide)
      (by norm_num) (by norm_num) (by norm_num)
      (by norm_num [MIN_QTY_THRESHOLD]) (by norm_num),
   claim_C3_short_guard_amended.2.2 10000 MIN_QTY_THRESHOLD
      MIN_TRADE_VALUE_THRESHOLD 10 (-1/10) 1 "AAPL" (by decide)
      (by norm_num [MIN_QTY_THRESHOLD]) (by norm_num) (by norm_num) (by norm_num)
      (by norm_num [MIN_QTY_THRESHOLD]) (by norm_num [MIN_TRADE_VALUE_THRESHOLD])⟩

/-- C4 counterexample: a position of 1e-7 shares (below the
minimum-quantity epsilon) with target weight exactly 0 is NOT closed —
the quantity dust filter runs before the liquidation override, so the
calculator returns no orders instead of a full-quantity sell. -/
theorem claim_C4_liquidation_counterexample :
    ((1/10000000 : ℚ) ≠ 0) ∧
    calculate_rebalancing_orders (PyVal.num 10000)
      [("AAPL", PyVal.num (1/10000000))] [("AAPL", PyVal.num 0)]
      [("AAPL", PyVal.num 100)] false MIN_QTY_THRESHOLD MIN_TRADE_VALUE_THRESHOLD
      = Except.ok [] := by
  refine ⟨by norm_num, ?_⟩
  have habs : |(-(1/10000000) : ℚ)| = 1/10000000 := by
    rw [abs_neg, abs_of_pos]; norm_num
  have hδ : snappedDelta 10000 false (1/10000000) 0 100 = -(1/10000000) := by
    norm_num [snappedDelta, rawDelta]
  rw [calculate_unfold_pos 10000 (by norm_num),
    symbolList_single "AAPL" (by decide) _ _, processAll_single]
  rw [processSymbol_skip 10000 false MIN_QTY_THRESHOLD MIN_TRADE_VALUE_THRESHOLD
    (1/10000000) 0 100 "AAPL" (by norm_num) (by norm_num [rawDelta])
    (Or.inl (by rw [hδ, habs]; norm_num [MIN_QTY_THRESHOLD]))]

/-- C4, amended.  Part (i), minimality (as claimed): a symbol appears
in the output only if its emitted quantity is at least the
minimum-quantity epsilon and either its notional meets the
minimum-notional threshold or its target weight is exactly 0.  Part
(ii), liquidation override, amended: a position with target weight 0
and quantity AT LEAST THE MINIMUM-QUANTITY EPSILON (amendment forced by
the counterexample: smaller dust is silently kept) is fully closed by a
sell of its full quantity regardless of notional size. -/
theorem claim_C4_minimality_liquidation_amended :
    (∀ (E : ℚ) (positions weights prices : Dict) (allowShort : Bool)
       (minQty minNotional : ℚ) (l : List Order) (o : Order),
      calculate_rebalancing_orders (PyVal.num E) positions weights prices
        allowShort minQty minNotional = Except.ok l → o ∈ l →
      ∃ q w p, dictGet positions o.symbol (PyVal.num 0) = PyVal.num q ∧
        dictGet weights o.symbol (PyVal.num 0) = PyVal.num w ∧
        dictGetOpt prices o.symbol = PyVal.num p ∧
        minQty ≤ o.qty ∧ (minNotional ≤ o.qty * p ∨ w = 0)) ∧
    (∀ (E minQty minNotional q p : ℚ) (s : String) (allowShort : Bool),
      s ≠ "CASH" → 0 < E → 0 < p → 0 < minQty → minQty ≤ q →
      calculate_rebalancing_orders (PyVal.num E) [(s, PyVal.num q)]
        [(s, PyVal.num 0)] [(s, PyVal.num p)] allowShort minQty minNotional
        = Except.ok
            [{ symbol := s, qty := q, side := "sell", type := "market" }]) := by
  constructor
  · -- (i) minimality
    intro E positions weights prices allowShort minQty minNotional l o hok ho
    obtain ⟨E2, hEeq, hE, hall⟩ := calculate_ok_inv _ _ _ _ _ _ _ _ hok
    have hE2 : E2 = E := by cases hEeq; rfl
    subst hE2
    obtain ⟨s, hs, hps⟩ := processAll_ok_mem _ _ _ _ _ _ _ _ _ _ hall ho
    obtain ⟨q, w, p, hq, hw, hp, hppos, hqw, hoeq, hminq, hnot⟩ :=
      processSymbol_ok_some_inv _ _ _ _ _ _ _ _ _ hps
    have hsym : o.symbol = s := by rw [hoeq]
    have hqty : o.qty = |snappedDelta E2 allowShort q w p| := by rw [hoeq]
    refine ⟨q, w, p, ?_, ?_, ?_, ?_, ?_⟩
    · rw [hsym]; exact hq
    · rw [hsym]; exact hw
    · rw [hsym]; exact hp
    · rw [hqty]; exact hminq
    · rw [hqty]; exact hnot
  · -- (ii) liquidation override for quantities at or above the epsilon
    intro E minQty minNotional q p s allowShort hs hE hppos hmq hqty
    have hq0 : 0 < q := lt_of_lt_of_le hmq hqty
    have h0 : rawDelta E q 0 p = -q := by
      unfold rawDelta
      rw [mul_zero, zero_div, zero_sub]
    have hsnap : snappedDelta E allowShort q 0 p = -q := by
      unfold snappedDelta
      rw [h0]
      by_cases hc : q + -q < 0 ∧ allowShort = false
      · rw [if_pos hc]
      · rw [if_neg hc]
    have habs : |snappedDelta E allowShort q 0 p| = q := by
      rw [hsnap, abs_neg, abs_of_pos hq0]
    have hshortok : ¬ (q + rawDelta E q 0 p < 0 ∧ allowShort = false ∧
        ¬ |q + rawDelta E q 0 p| < minQty) := by
      rintro ⟨h1, -, -⟩
      rw [h0] at h1
      linarith
    have hqw : ¬ (q = 0 ∧ (0 : ℚ) = 0) := by
      rintro ⟨h1, -⟩
      rw [h1] at hq0
      exact lt_irrefl 0 hq0
    have hsm : ¬ |snappedDelta E allowShort q 0 p| < minQty := by
      rw [habs]
      exact not_lt.mpr hqty
    have hnot : ¬ (|snappedDelta E allowShort q 0 p| * p < minNotional ∧
        ¬ (0 : ℚ) = 0) := by
      rintro ⟨-, h1⟩
      exact h1 rfl
    rw [calculate_unfold_pos E hE, symbolList_single s hs _ _, processAll_single]
    rw [processSymbol_emit E allowShort minQty minNotional q 0 p s hppos hqw
      hshortok hsm hnot]
    have hside : sideOf (snappedDelta E allowShort q 0 p) = "sell" := by
      rw [hsnap]
      unfold sideOf
      rw [if_neg (by linarith)]
    rw [habs, hside]

/-- C4 witness: part (i) on a concrete one-order run, and part (ii)
closing a 10-share position with weight 0 (a 1500-dollar "dust"
notional is irrelevant: any notional passes when the weight is 0). -/
theorem claim_C4_minimality_liquidation_amended_witness :
    (∃ q w p, dictGet [("AAPL", PyVal.num 10)]
        (Order.symbol { symbol := "AAPL", qty := 70/3, side := "buy", type := "market" })
        (PyVal.num 0) = PyVal.num q ∧
      dictGet [("AAPL", PyVal.num (1/2)), ("CASH", PyVal.num (1/2))]
        (Order.symbol { symbol := "AAPL", qty := 70/3, side := "buy", type := "market" })
        (PyVal.num 0) = PyVal.num w ∧
      dictGetOpt [("AAPL", PyVal.num 150)]
        (Order.symbol { symbol := "AAPL", qty := 70/3, side := "buy", type := "market" })
        = PyVal.num p ∧
      MIN_QTY_THRESHOLD
        ≤ Order.qty { symbol := "AAPL", qty := 70/3, side := "buy", type := "market" } ∧
      (MIN_TRADE_VALUE_THRESHOLD
        ≤ Order.qty { symbol := "AAPL", qty := 70/3, side := "buy", type := "market" } * p
        ∨ w = 0)) ∧
    calculate_rebalancing_orders (PyVal.num 10000) [("AAPL", PyVal.num 10)]
      [("AAPL", PyVal.num 0)] [("AAPL", PyVal.num 150)]
      false MIN_QTY_THRESHOLD MIN_TRADE_VALUE_THRESHOLD
      = Except.ok
          [{ symbol := "AAPL", qty := 10, side := "sell", type := "market" }] :=
  ⟨claim_C4_minimality_liquidation_amended.1 10000 [("AAPL", PyVal.num 10)]
      [("AAPL", PyVal.num (1/2)), ("CASH", PyVal.num (1/2))]
      [("AAPL", PyVal.num 150)] false MIN_QTY_THRESHOLD MIN_TRADE_VALUE_THRESHOLD
      [{ symbol := "AAPL", qty := 70/3, side := "buy", type := "market" }]
      { symbol := "AAPL", qty := 70/3, side := "buy", type := "market" }
      calc_cash_scenario (by simp),
   claim_C4_minimality_liquidation_amended.2 10000 MIN_QTY_THRESHOLD
      MIN_TRADE_VALUE_THRESHOLD 10 150 "AAPL" false (by decide) (by norm_num)
      (by norm_num) (by norm_num [MIN_QTY_THRESHOLD])
      (by norm_num [MIN_QTY_THRESHOLD])⟩

end AlpacaCli
